import Mathlib

/-!
Verification of the question-answering request pipeline of the repository
(files `app.py` and `LLM_QA_CLI.py`): the text normalizer, the LLM gateway
wrapper, and the request orchestrator, modelled as a shallow embedding.

Strings are modelled as lists of Unicode code points (`List Nat`), the way
Python treats `str`.  Character-class functions (`str.lower`, the
`string.punctuation` set, the whitespace set used by `str.split` and
`str.strip`) are modelled on the ASCII range, where they agree exactly with
CPython; all concrete inputs appearing in the development are ASCII.
-/

namespace QA

/-- Code points of a Lean string literal, used to write concrete inputs. -/
def codes (s : String) : List Nat := s.toList.map Char.toNat

/-- Python `string.punctuation` membership: the 32 printable ASCII
characters that are neither alphanumeric nor the space. -/
def isPunct (c : Nat) : Bool :=
  (33 ≤ c && c ≤ 47) || (58 ≤ c && c ≤ 64) || (91 ≤ c && c ≤ 96) ||
    (123 ≤ c && c ≤ 126)

/-- The ASCII whitespace set of Python `str.split` / `str.strip`:
TAB..CR (9-13), the separators FS..US (28-31) and the space (32). -/
def pyIsSpace (c : Nat) : Bool :=
  (9 ≤ c && c ≤ 13) || (28 ≤ c && c ≤ 32)

/-- Python `str.lower` on one ASCII code point. -/
def pyLower (c : Nat) : Nat :=
  if 65 ≤ c && c ≤ 90 then c + 32 else c

/-- `question.lower()`: case-fold every character. -/
def lowercase (s : List Nat) : List Nat := s.map pyLower

/-- `lowercased.translate(str.maketrans('', '', string.punctuation))`:
delete (not replace) every punctuation character. -/
def removePunctuation (s : List Nat) : List Nat :=
  s.filter (fun c => !isPunct c)

/-- Accumulator loop behind `pySplit`: `acc` holds the reversed current
word, flushed when whitespace or the end of the string is reached. -/
def pySplitAux : List Nat → List Nat → List (List Nat)
  | [], acc => if acc.isEmpty then [] else [acc.reverse]
  | c :: cs, acc =>
    if pyIsSpace c then
      if acc.isEmpty then pySplitAux cs []
      else acc.reverse :: pySplitAux cs []
    else pySplitAux cs (c :: acc)

/-- Python `str.split()` with no separator: maximal runs of
non-whitespace characters, leading/trailing/repeated whitespace dropped. -/
def pySplit (s : List Nat) : List (List Nat) := pySplitAux s []

/-- `' '.join(tokens)`: the tokens concatenated with a single space
(code point 32) between consecutive tokens. -/
def joinSpace : List (List Nat) → List Nat
  | [] => []
  | [t] => t
  | t :: t2 :: ts => t ++ 32 :: joinSpace (t2 :: ts)

/-- Python `str.strip()`: drop whitespace from both ends. -/
def pyStrip (s : List Nat) : List Nat :=
  ((s.dropWhile pyIsSpace).reverse.dropWhile pyIsSpace).reverse

/-- The dictionary built by `TextPreprocessor.preprocess` (`app.py`) and,
field for field, the trace printed by `preprocess_question`
(`LLM_QA_CLI.py`): both files run the identical pipeline. -/
structure PreprocessResult where
  original : List Nat
  lowercased : List Nat
  punctuationRemoved : List Nat
  tokens : List (List Nat)
  processed : List Nat
deriving Repr, DecidableEq

/-- `TextPreprocessor.preprocess` (`app.py` lines 85-121) =
`preprocess_question` (`LLM_QA_CLI.py` lines 18-56): lowercase, delete
punctuation, whitespace-split, rejoin with single spaces. -/
def preprocess (text : List Nat) : PreprocessResult :=
  let lowercased := lowercase text
  let no_punctuation := removePunctuation lowercased
  let tokens := pySplit no_punctuation
  let processed := joinSpace tokens
  { original := text
    lowercased := lowercased
    punctuationRemoved := no_punctuation
    tokens := tokens
    processed := processed }

/-- Specification-side reading of step 3 of §4.1 of the spec, tail part:
what remains of a `splitOnP` decomposition once the first chunk and the
separator that ended it are consumed. -/
def splitTail : List Nat → List (List Nat)
  | [] => []
  | _ :: r => r.splitOnP pyIsSpace

/-- Normalizer written word for word from spec §4.1: case-fold, delete
the punctuation set, split on runs of whitespace discarding empty
fragments (`splitOnP` keeps them, the filter drops them), rejoin with
single spaces.  To be compared with `preprocess`, the source-side
definition. -/
def specNormalize (s : List Nat) : PreprocessResult :=
  { original := s
    lowercased := s.map pyLower
    punctuationRemoved := (s.map pyLower).filter (fun c => !isPunct c)
    tokens := (((s.map pyLower).filter (fun c => !isPunct c)).splitOnP
        pyIsSpace).filter (fun t => !t.isEmpty)
    processed := joinSpace ((((s.map pyLower).filter
        (fun c => !isPunct c)).splitOnP pyIsSpace).filter
        (fun t => !t.isEmpty)) }

/-- Outcome of one `client.models.generate_content` call as the wrapper
code observes it: a well-formed response carrying `response.text`
(possibly empty), an `APIError` raised by the provider, or any other
raised exception. -/
inductive LLMResponse where
  | ok (text : List Nat)
  | apiError (detail : List Nat)
  | otherError (detail : List Nat)
deriving Repr, DecidableEq

/-- A configured provider client: the response produced for each
`contents` string sent to it. -/
abbrev Gateway := List Nat → LLMResponse

/-- Failure classification of `GeminiClient.generate_response`: the two
exception classes caught by `ask_question` (`app.py` lines 182-194). -/
inductive GenError where
  | api (detail : List Nat)
  | other (detail : List Nat)
deriving Repr, DecidableEq

/-- The fixed placeholder of `GeminiClient.generate_response`
(`app.py` line 59). -/
def httpPlaceholder : List Nat :=
  codes "I couldn" ++ [39] ++ codes "t generate a response. Please try again."

/-- `GeminiClient.generate_response` (`app.py` lines 46-59): forward the
prompt verbatim; a well-formed response with empty text becomes the
placeholder, raised exceptions become classified errors. -/
def generate_response (gw : Gateway) (prompt : List Nat) :
    Except GenError (List Nat) :=
  match gw prompt with
  | .ok t => .ok (if t.isEmpty then httpPlaceholder else t)
  | .apiError d => .error (.api d)
  | .otherError d => .error (.other d)

/-- Body of a `POST /api/ask` request: no parseable JSON object, a JSON
object without the `question` key, or a string-valued `question`. -/
inductive RequestBody where
  | noJson
  | missingQuestion
  | question (q : List Nat)
deriving Repr, DecidableEq

/-- JSON body of the reply: the error shape `{"error", "status"}` or the
success shape `{"question", "answer", "preprocessing", "status"}`. -/
inductive RespBody where
  | err (message : List Nat)
  | success (question answer : List Nat) (preprocessing : PreprocessResult)
deriving Repr, DecidableEq

/-- An HTTP reply: status code and JSON body. -/
structure HttpReply where
  httpStatus : Nat
  body : RespBody
deriving Repr, DecidableEq

/-- `app.py` line 143. -/
def svcUnavailableMsg : List Nat :=
  codes "AI service not configured. Please check API key."

/-- `app.py` line 153. -/
def missingFieldMsg : List Nat :=
  codes "Missing " ++ [39] ++ codes "question" ++ [39] ++
    codes " field in request body"

/-- `app.py` line 161. -/
def emptyQuestionMsg : List Nat := codes "Question cannot be empty"

/-- `app.py` line 185, the part before the provider detail. -/
def apiErrorPre : List Nat := codes "AI service error: "

/-- `app.py` line 192. -/
def unexpectedErrorMsg : List Nat :=
  codes "An unexpected error occurred. Please try again."

/-- `ask_question` (`app.py` lines 124-194).  The second component lists
the `contents` strings actually sent to the provider during the request,
so that "the Gateway is never invoked" is an observable statement. -/
def ask_question (client : Option Gateway) (body : RequestBody) :
    HttpReply × List (List Nat) :=
  match client with
  | none => (⟨503, .err svcUnavailableMsg⟩, [])
  | some gw =>
    match body with
    | .noJson => (⟨400, .err missingFieldMsg⟩, [])
    | .missingQuestion => (⟨400, .err missingFieldMsg⟩, [])
    | .question q0 =>
      let question := pyStrip q0
      if question.isEmpty then (⟨400, .err emptyQuestionMsg⟩, [])
      else
        let preprocessing := preprocess question
        match generate_response gw question with
        | .ok answer =>
          (⟨200, .success question answer preprocessing⟩, [question])
        | .error (.api d) =>
          (⟨500, .err (apiErrorPre ++ d)⟩, [question])
        | .error (.other _) =>
          (⟨500, .err unexpectedErrorMsg⟩, [question])

/-- The fixed instruction prepended by `query_llm`
(`LLM_QA_CLI.py` line 76). -/
def cliInstruction : List Nat :=
  codes "Answer the following question concisely: "

/-- `LLM_QA_CLI.py` line 89. -/
def cliEmptyMsg : List Nat :=
  codes "No response generated. Please try again."

/-- `query_llm` (`LLM_QA_CLI.py` lines 59-94): wraps the question in the
instruction, returns the completion, the empty-completion placeholder, or
an error string — every exception is converted to a returned string.  The
second component lists the `contents` strings sent to the provider. -/
def query_llm (gw : Gateway) (question : List Nat) :
    List Nat × List (List Nat) :=
  let prompt := cliInstruction ++ question
  match gw prompt with
  | .ok t => (if t.isEmpty then cliEmptyMsg else t, [prompt])
  | .apiError d => (codes "API Error: " ++ d, [prompt])
  | .otherError d => (codes "Error: " ++ d, [prompt])

/-- What one iteration of the CLI loop does with one input line. -/
inductive CliAction where
  | quitLoop
  | reprompt (message : List Nat)
  | answered (answer : List Nat) (calls : List (List Nat))
deriving Repr, DecidableEq

/-- The exit literals of the CLI loop (`LLM_QA_CLI.py` line 129). -/
def exitWords : List (List Nat) := [codes "quit", codes "exit", codes "q"]

/-- One iteration of `main` (`LLM_QA_CLI.py` lines 123-150): strip the
line, exit on the quit literals, re-prompt on empty input, otherwise
preprocess (diagnostics only) and query with the original question. -/
def cli_step (gw : Gateway) (line : List Nat) : CliAction :=
  let question := pyStrip line
  if lowercase question ∈ exitWords then .quitLoop
  else if question.isEmpty then
    .reprompt (codes "Please enter a valid question.")
  else
    let qa := query_llm gw question
    .answered qa.1 qa.2

/-- ASCII letters and digits, as a character class on code points. -/
def isAsciiAlnum (c : Nat) : Bool :=
  (48 ≤ c && c ≤ 57) || (65 ≤ c && c ≤ 90) || (97 ≤ c && c ≤ 122)

/-- Lowercase ASCII letters and digits: the alphabet the spec promises
for `processed`. -/
def isLowerAlnum (c : Nat) : Bool :=
  (48 ≤ c && c ≤ 57) || (97 ≤ c && c ≤ 122)

/-- The preprocessing trace carried by a reply body, if any: error bodies
have no `preprocessing` field. -/
def responseTrace : RespBody → Option PreprocessResult
  | .err _ => none
  | .success _ _ p => some p

/-- A stub client that answers every prompt with the text "Paris". -/
def gwOk : Gateway := fun _ => LLMResponse.ok (codes "Paris")

/-- A stub client whose well-formed response carries no text. -/
def gwEmpty : Gateway := fun _ => LLMResponse.ok []

/-- A stub client raising `APIError` with detail "quota exceeded". -/
def gwApiQuota : Gateway := fun _ => LLMResponse.apiError (codes "quota exceeded")

/-- A stub client raising a non-`APIError` exception. -/
def gwBoom : Gateway := fun _ => LLMResponse.otherError (codes "boom")

/-- Skipping a leading whitespace character does not change the split. -/
theorem pySplit_cons_space (c : Nat) (cs : List Nat) (h : pyIsSpace c = true) :
    pySplit (c :: cs) = pySplit cs := by
  simp [pySplit, pySplitAux, h]

/-- With a word under construction, `pySplitAux` emits that word extended
by the next maximal non-whitespace run, then continues on the rest. -/
theorem pySplitAux_word (s : List Nat) : ∀ acc : List Nat, acc ≠ [] →
    pySplitAux s acc =
      (acc.reverse ++ s.takeWhile (fun d => !pyIsSpace d)) ::
        pySplit (s.dropWhile (fun d => !pyIsSpace d)) := by
  induction s with
  | nil =>
    intro acc hacc
    simp [pySplitAux, pySplit, List.isEmpty_iff, hacc]
  | cons c cs ih =>
    intro acc hacc
    by_cases h : pyIsSpace c = true
    · rw [List.takeWhile_cons_of_neg (by simp [h]),
        List.dropWhile_cons_of_neg (by simp [h]), pySplit_cons_space c cs h]
      simp [pySplitAux, h, List.isEmpty_iff, hacc, pySplit]
    · rw [List.takeWhile_cons_of_pos (by simp [h]),
        List.dropWhile_cons_of_pos (by simp [h])]
      have hb : pyIsSpace c = false := by simpa using h
      simp only [pySplitAux, hb]
      rw [ih (c :: acc) (by simp), List.reverse_cons, List.append_assoc]
      simp

/-- Splitting a string that starts with a non-whitespace character yields
the first maximal word followed by the split of the remainder. -/
theorem pySplit_cons_word (c : Nat) (cs : List Nat) (h : pyIsSpace c = false) :
    pySplit (c :: cs) =
      (c :: cs.takeWhile (fun d => !pyIsSpace d)) ::
        pySplit (cs.dropWhile (fun d => !pyIsSpace d)) := by
  have hb := pySplitAux_word cs [c] (by simp)
  simp only [pySplit, pySplitAux, h] at hb ⊢
  simpa using hb

/-- A `splitOnP` decomposition starts with the maximal first chunk. -/
theorem splitOnP_eq_takeWhile_cons (s : List Nat) :
    s.splitOnP pyIsSpace =
      s.takeWhile (fun d => !pyIsSpace d) ::
        splitTail (s.dropWhile (fun d => !pyIsSpace d)) := by
  induction s with
  | nil => simp [List.splitOnP_nil, splitTail]
  | cons c cs ih =>
    by_cases h : pyIsSpace c = true
    · rw [List.splitOnP_cons, if_pos h,
        List.takeWhile_cons_of_neg (by simp [h]),
        List.dropWhile_cons_of_neg (by simp [h])]
      simp [splitTail]
    · have hb : pyIsSpace c = false := by simpa using h
      rw [List.splitOnP_cons, if_neg (by simp [hb]),
        List.takeWhile_cons_of_pos (by simp [hb]),
        List.dropWhile_cons_of_pos (by simp [hb]), ih]
      simp [List.modifyHead]

/-- The head of a non-trivial `dropWhile` result falsifies the predicate. -/
theorem dropWhile_head_false {p : Nat → Bool} :
    ∀ (l : List Nat) (d : Nat) (r : List Nat),
      l.dropWhile p = d :: r → p d = false := by
  intro l
  induction l with
  | nil =>
    intro d r h
    simp [List.dropWhile] at h
  | cons a l ih =>
    intro d r h
    by_cases ha : p a = true
    · rw [List.dropWhile_cons_of_pos ha] at h
      exact ih d r h
    · rw [List.dropWhile_cons_of_neg ha] at h
      cases h
      simpa using ha

/-- Bounded form of `pySplit_eq_splitOnP`, by strong induction on length. -/
theorem pySplit_eq_splitOnP_bounded : ∀ (n : Nat) (s : List Nat),
    s.length ≤ n →
    pySplit s = (s.splitOnP pyIsSpace).filter (fun t => !t.isEmpty) := by
  intro n
  induction n with
  | zero =>
    intro s hs
    have : s = [] := List.eq_nil_of_length_eq_zero (Nat.le_zero.mp hs)
    subst this
    simp [pySplit, pySplitAux, List.splitOnP_nil]
  | succ n ih =>
    intro s hs
    match s with
    | [] => simp [pySplit, pySplitAux, List.splitOnP_nil]
    | c :: cs =>
      simp only [List.length_cons, Nat.succ_le_succ_iff] at hs
      by_cases h : pyIsSpace c = true
      · rw [pySplit_cons_space c cs h, List.splitOnP_cons, if_pos h]
        simpa using ih cs hs
      · have hb : pyIsSpace c = false := by simpa using h
        rw [pySplit_cons_word c cs hb, splitOnP_eq_takeWhile_cons,
          List.takeWhile_cons_of_pos (by simp [hb]),
          List.dropWhile_cons_of_pos (by simp [hb]), List.filter_cons]
        simp only [List.isEmpty_cons, Bool.not_false, if_true]
        refine congrArg _ ?_
        cases hd : cs.dropWhile (fun d => !pyIsSpace d) with
        | nil => simp [splitTail, pySplit, pySplitAux]
        | cons d r =>
          have hdlen : (cs.dropWhile (fun d => !pyIsSpace d)).length ≤
              cs.length :=
            (List.dropWhile_sublist _).length_le
          rw [hd] at hdlen
          simp only [List.length_cons] at hdlen
          have hds : pyIsSpace d = true := by
            have := dropWhile_head_false cs d r hd
            simpa using this
          simp only [splitTail]
          rw [pySplit_cons_space d r hds]
          exact ih r (by omega)

/-- `pySplit` is exactly the spec's "split on runs of whitespace with
empty fragments discarded": `splitOnP` keeps the empty fragments, the
filter drops them. -/
theorem pySplit_eq_splitOnP (s : List Nat) :
    pySplit s = (s.splitOnP pyIsSpace).filter (fun t => !t.isEmpty) :=
  pySplit_eq_splitOnP_bounded s.length s le_rfl

/-- Bounded form of `pySplit_tokens`: every token is a non-empty list of
non-whitespace characters drawn from the input. -/
theorem pySplit_tokens_bounded : ∀ (n : Nat) (s : List Nat), s.length ≤ n →
    ∀ t ∈ pySplit s, t ≠ [] ∧ ∀ c ∈ t, pyIsSpace c = false ∧ c ∈ s := by
  intro n
  induction n with
  | zero =>
    intro s hs
    have hnil : s = [] := List.eq_nil_of_length_eq_zero (Nat.le_zero.mp hs)
    subst hnil
    simp [pySplit, pySplitAux]
  | succ n ih =>
    intro s hs t ht
    match s with
    | [] => simp [pySplit, pySplitAux] at ht
    | c :: cs =>
      simp only [List.length_cons, Nat.succ_le_succ_iff] at hs
      by_cases h : pyIsSpace c = true
      · rw [pySplit_cons_space c cs h] at ht
        obtain ⟨h1, h2⟩ := ih cs hs t ht
        exact ⟨h1, fun d hd =>
          ⟨(h2 d hd).1, List.mem_cons_of_mem c (h2 d hd).2⟩⟩
      · have hb : pyIsSpace c = false := by simpa using h
        rw [pySplit_cons_word c cs hb] at ht
        rcases List.mem_cons.mp ht with h1 | h1
        · subst h1
          refine ⟨by simp, ?_⟩
          intro d hd
          rcases List.mem_cons.mp hd with rfl | hd2
          · exact ⟨hb, List.mem_cons_self _ _⟩
          · refine ⟨?_, List.mem_cons_of_mem c (List.takeWhile_subset _ hd2)⟩
            have := List.mem_takeWhile_imp hd2
            simpa using this
        · have hdlen :
              (cs.dropWhile (fun d => !pyIsSpace d)).length ≤ cs.length :=
            (List.dropWhile_sublist _).length_le
          obtain ⟨h1', h2'⟩ := ih _ (le_trans hdlen hs) t h1
          exact ⟨h1', fun d hd => ⟨(h2' d hd).1,
            List.mem_cons_of_mem c (List.dropWhile_subset _ (h2' d hd).2)⟩⟩

/-- Every token produced by `pySplit` is non-empty, free of whitespace,
and made of characters of the input string. -/
theorem pySplit_tokens (s : List Nat) :
    ∀ t ∈ pySplit s, t ≠ [] ∧ ∀ c ∈ t, pyIsSpace c = false ∧ c ∈ s :=
  pySplit_tokens_bounded s.length s le_rfl

/-- Splitting a whitespace-free non-empty word followed by either nothing
or a whitespace character peels off exactly that word. -/
theorem pySplit_word_append (t rest : List Nat) (ht : t ≠ [])
    (hall : ∀ c ∈ t, pyIsSpace c = false)
    (hrest : rest = [] ∨ ∃ d r, rest = d :: r ∧ pyIsSpace d = true) :
    pySplit (t ++ rest) = t :: pySplit rest := by
  match t with
  | [] => exact absurd rfl ht
  | a :: t2 =>
    have ha : pyIsSpace a = false := hall a (List.mem_cons_self _ _)
    rw [List.cons_append, pySplit_cons_word a (t2 ++ rest) ha]
    have ht2 : t2.takeWhile (fun d => !pyIsSpace d) = t2 :=
      List.takeWhile_eq_self_iff.mpr
        (fun x hx => by simp [hall x (List.mem_cons_of_mem a hx)])
    have hd2 : t2.dropWhile (fun d => !pyIsSpace d) = [] :=
      List.dropWhile_eq_nil_iff.mpr
        (fun x hx => by simp [hall x (List.mem_cons_of_mem a hx)])
    have htw : (t2 ++ rest).takeWhile (fun d => !pyIsSpace d) = t2 := by
      rw [List.takeWhile_append, ht2, if_pos rfl]
      rcases hrest with rfl | ⟨d, r, rfl, hd⟩
      · simp
      · rw [List.takeWhile_cons_of_neg (by simp [hd])]
        simp
    have hdw : (t2 ++ rest).dropWhile (fun d => !pyIsSpace d) = rest := by
      rw [List.dropWhile_append, hd2]
      simp only [List.isEmpty_nil, if_true]
      rcases hrest with rfl | ⟨d, r, rfl, hd⟩
      · simp
      · rw [List.dropWhile_cons_of_neg (by simp [hd])]
    rw [htw, hdw]

/-- Rejoining with single spaces then resplitting recovers the tokens,
provided every token is non-empty and free of whitespace. -/
theorem pySplit_joinSpace : ∀ ts : List (List Nat),
    (∀ t ∈ ts, t ≠ []) → (∀ t ∈ ts, ∀ c ∈ t, pyIsSpace c = false) →
    pySplit (joinSpace ts) = ts := by
  intro ts
  induction ts with
  | nil =>
    intro _ _
    rfl
  | cons t ts ih =>
    intro hne hns
    cases ts with
    | nil =>
      have h := pySplit_word_append t [] (hne t (by simp))
        (fun c hc => hns t (by simp) c hc) (Or.inl rfl)
      simpa [joinSpace] using h
    | cons t2 ts2 =>
      have hjoin : joinSpace (t :: t2 :: ts2) =
          t ++ 32 :: joinSpace (t2 :: ts2) := rfl
      rw [hjoin, pySplit_word_append t (32 :: joinSpace (t2 :: ts2))
        (hne t (by simp)) (fun c hc => hns t (by simp) c hc)
        (Or.inr ⟨32, joinSpace (t2 :: ts2), rfl, by decide⟩),
        pySplit_cons_space 32 (joinSpace (t2 :: ts2)) (by decide),
        ih (fun u hu => hne u (List.mem_cons_of_mem t hu))
          (fun u hu => hns u (List.mem_cons_of_mem t hu))]

/-- Characters of a space-joined token list: the space itself or a
character of one of the tokens. -/
theorem mem_joinSpace : ∀ (ts : List (List Nat)) (c : Nat),
    c ∈ joinSpace ts → c = 32 ∨ ∃ t ∈ ts, c ∈ t := by
  intro ts
  induction ts with
  | nil =>
    intro c hc
    simp [joinSpace] at hc
  | cons t ts ih =>
    intro c hc
    cases ts with
    | nil => exact Or.inr ⟨t, by simp, by simpa [joinSpace] using hc⟩
    | cons t2 ts2 =>
      have hjoin : joinSpace (t :: t2 :: ts2) =
          t ++ 32 :: joinSpace (t2 :: ts2) := rfl
      rw [hjoin] at hc
      rcases List.mem_append.mp hc with h | h
      · exact Or.inr ⟨t, by simp, h⟩
      · rcases List.mem_cons.mp h with rfl | h2
        · exact Or.inl rfl
        · rcases ih c h2 with h32 | ⟨u, hu, hcu⟩
          · exact Or.inl h32
          · exact Or.inr ⟨u, List.mem_cons_of_mem t hu, hcu⟩

/-- ASCII case folding is idempotent. -/
theorem pyLower_idem (c : Nat) : pyLower (pyLower c) = pyLower c := by
  simp only [pyLower, Bool.and_eq_true, decide_eq_true_eq]
  split_ifs <;> omega

/-- The `preprocess` record, with the `let` chain written out. -/
theorem preprocess_fields (s : List Nat) :
    preprocess s =
      { original := s
        lowercased := lowercase s
        punctuationRemoved := removePunctuation (lowercase s)
        tokens := pySplit (removePunctuation (lowercase s))
        processed := joinSpace (pySplit (removePunctuation (lowercase s))) } :=
  rfl

/-- Every character of a `processed` string is the single space or a
case-folded, punctuation-free, non-whitespace character. -/
theorem processed_mem_char (s : List Nat) :
    ∀ c ∈ joinSpace (pySplit (removePunctuation (lowercase s))),
      c = 32 ∨ (pyIsSpace c = false ∧ isPunct c = false ∧ pyLower c = c) := by
  intro c hc
  rcases mem_joinSpace _ c hc with h32 | ⟨t, ht, hct⟩
  · exact Or.inl h32
  · obtain ⟨-, hprops⟩ := pySplit_tokens _ t ht
    obtain ⟨hns, hmem⟩ := hprops c hct
    rcases List.mem_filter.mp hmem with ⟨hmap, hnp⟩
    refine Or.inr ⟨hns, by simpa using hnp, ?_⟩
    rcases List.mem_map.mp hmap with ⟨x, -, hx⟩
    rw [← hx]
    exact pyLower_idem x

/-- Re-normalizing a `processed` string changes nothing: each stage of
the pipeline fixes it. -/
theorem preprocess_processed_fixed (s : List Nat) :
    (preprocess (preprocess s).processed).processed =
      (preprocess s).processed := by
  have hchar := processed_mem_char s
  have hPp : (preprocess s).processed =
      joinSpace (pySplit (removePunctuation (lowercase s))) := rfl
  rw [hPp]
  have hlow : lowercase (joinSpace (pySplit (removePunctuation
      (lowercase s)))) = joinSpace (pySplit (removePunctuation
      (lowercase s))) := by
    have hfix : ∀ c ∈ joinSpace (pySplit (removePunctuation
        (lowercase s))), pyLower c = c := by
      intro c hc
      rcases hchar c hc with rfl | ⟨-, -, h⟩
      · decide
      · exact h
    calc lowercase (joinSpace (pySplit (removePunctuation (lowercase s))))
        = (joinSpace (pySplit (removePunctuation
            (lowercase s)))).map (fun a => a) :=
          List.map_congr_left hfix
      _ = joinSpace (pySplit (removePunctuation (lowercase s))) :=
          List.map_id' _
  have hpun : removePunctuation (joinSpace (pySplit (removePunctuation
      (lowercase s)))) = joinSpace (pySplit (removePunctuation
      (lowercase s))) := by
    apply List.filter_eq_self.mpr
    intro c hc
    rcases hchar c hc with rfl | ⟨-, h, -⟩
    · decide
    · simp [h]
  have htok : pySplit (joinSpace (pySplit (removePunctuation
      (lowercase s)))) = pySplit (removePunctuation (lowercase s)) := by
    refine pySplit_joinSpace _ ?_ ?_
    · intro t ht
      exact (pySplit_tokens _ t ht).1
    · intro t ht c hc
      exact ((pySplit_tokens _ t ht).2 c hc).1
  show joinSpace (pySplit (removePunctuation (lowercase (joinSpace
    (pySplit (removePunctuation (lowercase s))))))) =
      joinSpace (pySplit (removePunctuation (lowercase s)))
  rw [hlow, hpun, htok]

/-- The source normalizer refines the spec's wording exactly. -/
theorem preprocess_eq_specNormalize (s : List Nat) :
    preprocess s = specNormalize s := by
  rw [preprocess_fields, specNormalize]
  have htok : pySplit (removePunctuation (lowercase s)) =
      (((s.map pyLower).filter (fun c => !isPunct c)).splitOnP
        pyIsSpace).filter (fun t => !t.isEmpty) :=
    pySplit_eq_splitOnP _
  simp only [lowercase, removePunctuation] at htok ⊢
  rw [htok]

/-- Propositional reading of `isPunct`. -/
theorem isPunct_iff (c : Nat) : isPunct c = true ↔
    (33 ≤ c ∧ c ≤ 47) ∨ (58 ≤ c ∧ c ≤ 64) ∨ (91 ≤ c ∧ c ≤ 96) ∨
      (123 ≤ c ∧ c ≤ 126) := by
  simp [isPunct, Bool.or_eq_true, Bool.and_eq_true, decide_eq_true_eq,
    or_assoc]

/-- Propositional reading of `pyIsSpace`. -/
theorem pyIsSpace_iff (c : Nat) : pyIsSpace c = true ↔
    (9 ≤ c ∧ c ≤ 13) ∨ (28 ≤ c ∧ c ≤ 32) := by
  simp [pyIsSpace, Bool.or_eq_true, Bool.and_eq_true, decide_eq_true_eq]

/-- Propositional reading of `isAsciiAlnum`. -/
theorem isAsciiAlnum_iff (c : Nat) : isAsciiAlnum c = true ↔
    (48 ≤ c ∧ c ≤ 57) ∨ (65 ≤ c ∧ c ≤ 90) ∨ (97 ≤ c ∧ c ≤ 122) := by
  simp [isAsciiAlnum, Bool.or_eq_true, Bool.and_eq_true, decide_eq_true_eq,
    or_assoc]

/-- Propositional reading of `isLowerAlnum`. -/
theorem isLowerAlnum_iff (c : Nat) : isLowerAlnum c = true ↔
    (48 ≤ c ∧ c ≤ 57) ∨ (97 ≤ c ∧ c ≤ 122) := by
  simp [isLowerAlnum, Bool.or_eq_true, Bool.and_eq_true, decide_eq_true_eq]

/-- `pyLower` either shifts an uppercase letter down or fixes its input. -/
theorem pyLower_cases (x : Nat) :
    (65 ≤ x ∧ x ≤ 90 ∧ pyLower x = x + 32) ∨
      (¬(65 ≤ x ∧ x ≤ 90) ∧ pyLower x = x) := by
  by_cases h : 65 ≤ x ∧ x ≤ 90
  · exact Or.inl ⟨h.1, h.2, by simp [pyLower, h.1, h.2]⟩
  · refine Or.inr ⟨h, ?_⟩
    simp only [pyLower]
    rw [if_neg]
    simpa [Bool.and_eq_true, decide_eq_true_eq] using h

/-- A case-folded character of the allowed ASCII classes that is neither
punctuation nor whitespace must be a lowercase letter or a digit. -/
theorem pyLower_class (x : Nat)
    (hx : (isAsciiAlnum x || isPunct x || pyIsSpace x) = true)
    (hnp : isPunct (pyLower x) = false)
    (hns : pyIsSpace (pyLower x) = false) :
    isLowerAlnum (pyLower x) = true := by
  rw [Bool.or_eq_true, Bool.or_eq_true] at hx
  rcases pyLower_cases x with ⟨h1, h2, he⟩ | ⟨h1, he⟩
  · rw [he, isLowerAlnum_iff]
    omega
  · rw [he] at hnp hns ⊢
    rw [isLowerAlnum_iff]
    rcases hx with (ha | hp) | hs
    · rw [isAsciiAlnum_iff] at ha
      omega
    · exact absurd hp (by simp [hnp])
    · exact absurd hs (by simp [hns])

/-- A stripped question that is not the empty list is not `isEmpty`. -/
theorem pyStrip_isEmpty_false {q : List Nat} (hq : pyStrip q ≠ []) :
    (pyStrip q).isEmpty = false := by
  simpa [List.isEmpty_iff] using hq

/-- Whatever the client answers, a validated HTTP request sends exactly
one prompt: the stripped original question. -/
theorem ask_question_calls (gw : Gateway) (q : List Nat)
    (hq : pyStrip q ≠ []) :
    (ask_question (some gw) (RequestBody.question q)).2 = [pyStrip q] := by
  have hne := pyStrip_isEmpty_false hq
  cases hgw : gw (pyStrip q) <;>
    simp [ask_question, generate_response, hne, hgw]

/-- Whatever the client answers, the CLI sends exactly one prompt: the
fixed instruction followed by the question. -/
theorem query_llm_calls (gw : Gateway) (q : List Nat) :
    (query_llm gw q).2 = [cliInstruction ++ q] := by
  cases hgw : gw (cliInstruction ++ q) <;> simp [query_llm, hgw]

/-- C1 counterexample: for the valid question
"What is the Capital of France?", the CLI variant does not pass the
original question text to the provider — it sends the fixed instruction
followed by the question, so the claim fails in the CLI variant. -/
theorem c1_counterexample :
    (query_llm gwOk (codes "What is the Capital of France?")).2 ≠
      [codes "What is the Capital of France?"] ∧
    (query_llm gwOk (codes "What is the Capital of France?")).2 =
      [codes
        "Answer the following question concisely: What is the Capital of France?"] := by
  decide

/-- C1 (amended): for every valid question, the HTTP variant sends the
stripped original question verbatim and nothing else, the CLI variant
sends the fixed instruction followed by the stripped original question
and nothing else, and in both variants the normalized `processed` text is
not sent whenever it differs from those prompts. -/
theorem c1_prompt_is_original (gw : Gateway) (q : List Nat)
    (hq : pyStrip q ≠ []) :
    (ask_question (some gw) (RequestBody.question q)).2 = [pyStrip q] ∧
    (query_llm gw (pyStrip q)).2 = [cliInstruction ++ pyStrip q] ∧
    ((preprocess (pyStrip q)).processed ≠ pyStrip q →
      (preprocess (pyStrip q)).processed ∉
        (ask_question (some gw) (RequestBody.question q)).2) ∧
    ((preprocess (pyStrip q)).processed ≠ cliInstruction ++ pyStrip q →
      (preprocess (pyStrip q)).processed ∉ (query_llm gw (pyStrip q)).2) := by
  have h1 := ask_question_calls gw q hq
  have h2 := query_llm_calls gw (pyStrip q)
  refine ⟨h1, h2, ?_, ?_⟩
  · intro hne
    rw [h1]
    simpa using hne
  · intro hne
    rw [h2]
    simpa using hne

/-- C1 witness: the amended theorem applied to the question " Hi! ". -/
theorem c1_witness :
    pyStrip (codes " Hi! ") ≠ [] ∧
    (ask_question (some gwOk) (RequestBody.question (codes " Hi! "))).2 =
      [pyStrip (codes " Hi! ")] ∧
    (query_llm gwOk (pyStrip (codes " Hi! "))).2 =
      [cliInstruction ++ pyStrip (codes " Hi! ")] :=
  ⟨by decide, (c1_prompt_is_original gwOk (codes " Hi! ") (by decide)).1,
    (c1_prompt_is_original gwOk (codes " Hi! ") (by decide)).2.1⟩

/-- C2: the normalizer computes exactly, in order, case folding, deletion
of the ASCII punctuation set, splitting on runs of whitespace with empty
fragments discarded, and rejoining with single spaces — stated as
refinement of the spec-worded `specNormalize` — and it produces the
specified trace on "What is the Capital of France?". -/
theorem c2_normalizer_exact :
    (∀ s : List Nat, preprocess s = specNormalize s) ∧
    preprocess (codes "What is the Capital of France?") =
      { original := codes "What is the Capital of France?"
        lowercased := codes "what is the capital of france?"
        punctuationRemoved := codes "what is the capital of france"
        tokens := [codes "what", codes "is", codes "the", codes "capital",
          codes "of", codes "france"]
        processed := codes "what is the capital of france" } :=
  ⟨preprocess_eq_specNormalize, by decide⟩

/-- C3 counterexample: a request whose body lacks the `question` field
receives 503, not 400, when the Gateway is unconfigured — the code checks
the client before validating the body. -/
theorem c3_counterexample :
    (ask_question none RequestBody.missingQuestion).1.httpStatus = 503 ∧
    (ask_question none RequestBody.missingQuestion).1.httpStatus ≠ 400 ∧
    (ask_question none RequestBody.missingQuestion).2 = [] := by
  decide

/-- C3 (amended): when a Gateway is configured, every request with a
missing `question` field or an empty-after-trimming question is answered
with HTTP 400 and an error body, and the Gateway is never invoked. -/
theorem c3_validation_rejected (gw : Gateway) (body : RequestBody)
    (h : body = RequestBody.noJson ∨ body = RequestBody.missingQuestion ∨
      ∃ q, body = RequestBody.question q ∧ pyStrip q = []) :
    (ask_question (some gw) body).1.httpStatus = 400 ∧
    (ask_question (some gw) body).2 = [] ∧
    ∃ m, (ask_question (some gw) body).1.body = RespBody.err m := by
  rcases h with rfl | rfl | ⟨q, rfl, hq⟩
  · exact ⟨rfl, rfl, missingFieldMsg, rfl⟩
  · exact ⟨rfl, rfl, missingFieldMsg, rfl⟩
  · have hne : (pyStrip q).isEmpty = true := by simp [hq]
    refine ⟨?_, ?_, emptyQuestionMsg, ?_⟩ <;> simp [ask_question, hne]

/-- C3 witness: the amended theorem applied to a whitespace-only
question with a configured stub client. -/
theorem c3_witness :
    (ask_question (some gwOk)
        (RequestBody.question (codes "   "))).1.httpStatus = 400 ∧
    (ask_question (some gwOk) (RequestBody.question (codes "   "))).2 = [] :=
  ⟨(c3_validation_rejected gwOk (RequestBody.question (codes "   "))
      (Or.inr (Or.inr ⟨codes "   ", rfl, by decide⟩))).1,
    (c3_validation_rejected gwOk (RequestBody.question (codes "   "))
      (Or.inr (Or.inr ⟨codes "   ", rfl, by decide⟩))).2.1⟩

/-- C4: with no credential the client is absent and every request is
answered 503 with the fixed error body, no provider call attempted. -/
theorem c4_unconfigured_503 (body : RequestBody) :
    ask_question none body =
      (⟨503, RespBody.err svcUnavailableMsg⟩, []) := by
  cases body <;> rfl

/-- C5 counterexample: on the non-empty input consisting of the single
control character U+0001, `processed` is that same character: a token
that is neither lowercase alphanumeric nor empty, refuting the claim for
arbitrary non-empty inputs. -/
theorem c5_counterexample :
    ([1] : List Nat) ≠ [] ∧
    (preprocess [1]).processed = [1] ∧
    (preprocess [1]).tokens = [[1]] ∧
    isLowerAlnum 1 = false ∧ isPunct 1 = false ∧ pyIsSpace 1 = false := by
  decide

/-- C5 (amended): for non-empty inputs whose characters are ASCII
alphanumeric, ASCII punctuation, or whitespace, every token of the
normalizer is a non-empty string of lowercase alphanumeric characters,
`processed` is those tokens separated by single spaces (splitting it
recovers exactly `tokens`), and the number of space-separated groups of
`processed` equals the length of `tokens`. -/
theorem c5_processed_alphabet (s : List Nat) (_hne : s ≠ [])
    (hok : ∀ c ∈ s, (isAsciiAlnum c || isPunct c || pyIsSpace c) = true) :
    (∀ t ∈ (preprocess s).tokens, t ≠ [] ∧ ∀ c ∈ t, isLowerAlnum c = true) ∧
    pySplit (preprocess s).processed = (preprocess s).tokens ∧
    (pySplit (preprocess s).processed).length =
      (preprocess s).tokens.length := by
  have htokens : (preprocess s).tokens =
      pySplit (removePunctuation (lowercase s)) := rfl
  have hsplit : pySplit (preprocess s).processed = (preprocess s).tokens := by
    have hproc : (preprocess s).processed =
        joinSpace (pySplit (removePunctuation (lowercase s))) := rfl
    rw [hproc, htokens]
    refine pySplit_joinSpace _ ?_ ?_
    · intro t ht
      exact (pySplit_tokens _ t ht).1
    · intro t ht c hc
      exact ((pySplit_tokens _ t ht).2 c hc).1
  refine ⟨?_, hsplit, by rw [hsplit]⟩
  intro t ht
  rw [htokens] at ht
  obtain ⟨h1, h2⟩ := pySplit_tokens _ t ht
  refine ⟨h1, fun c hc => ?_⟩
  obtain ⟨hns, hmem⟩ := h2 c hc
  rcases List.mem_filter.mp hmem with ⟨hmap, hnp⟩
  rcases List.mem_map.mp hmap with ⟨x, hxs, hxc⟩
  rw [← hxc] at hns hnp ⊢
  exact pyLower_class x (hok x hxs) (by simpa using hnp) hns

/-- C5 witness: the amended theorem applied to
"What is the Capital of France?". -/
theorem c5_witness :
    (codes "What is the Capital of France?" ≠ [] ∧
      ∀ c ∈ codes "What is the Capital of France?",
        (isAsciiAlnum c || isPunct c || pyIsSpace c) = true) ∧
    (∀ t ∈ (preprocess (codes "What is the Capital of France?")).tokens,
      t ≠ [] ∧ ∀ c ∈ t, isLowerAlnum c = true) ∧
    pySplit (preprocess (codes "What is the Capital of France?")).processed =
      (preprocess (codes "What is the Capital of France?")).tokens :=
  ⟨⟨by decide, by decide⟩,
    (c5_processed_alphabet (codes "What is the Capital of France?")
      (by decide) (by decide)).1,
    (c5_processed_alphabet (codes "What is the Capital of France?")
      (by decide) (by decide)).2.1⟩

/-- C6: normalization is idempotent on `processed`: re-normalizing the
`processed` field yields the same `processed` value. -/
theorem c6_idempotent (s : List Nat) :
    (preprocess (preprocess s).processed).processed =
      (preprocess s).processed :=
  preprocess_processed_fixed s

/-- C7: a well-formed provider response with no usable text yields an
HTTP 200 success whose answer is the fixed placeholder string, with the
preprocessing trace attached — not an error. -/
theorem c7_empty_completion_success (gw : Gateway) (q : List Nat)
    (hq : pyStrip q ≠ []) (hgw : gw (pyStrip q) = LLMResponse.ok []) :
    ask_question (some gw) (RequestBody.question q) =
      (⟨200, RespBody.success (pyStrip q) httpPlaceholder
          (preprocess (pyStrip q))⟩, [pyStrip q]) := by
  have hne := pyStrip_isEmpty_false hq
  simp [ask_question, generate_response, hne, hgw]

/-- C7 witness: the theorem applied to the question "Hi" and a stub
client returning empty text. -/
theorem c7_witness :
    pyStrip (codes "Hi") ≠ [] ∧
    ask_question (some gwEmpty) (RequestBody.question (codes "Hi")) =
      (⟨200, RespBody.success (pyStrip (codes "Hi")) httpPlaceholder
          (preprocess (pyStrip (codes "Hi")))⟩, [pyStrip (codes "Hi")]) :=
  ⟨by decide, c7_empty_completion_success gwEmpty (codes "Hi")
    (by decide) rfl⟩

/-- C8: every Gateway failure is converted to a structured HTTP 500
reply — provider-classified errors carry the provider detail after the
fixed prefix, any other failure the generic message — so no failure
leaves `ask_question` unhandled. -/
theorem c8_failures_structured (gw : Gateway) (q d : List Nat)
    (hq : pyStrip q ≠ []) :
    (gw (pyStrip q) = LLMResponse.apiError d →
      ask_question (some gw) (RequestBody.question q) =
        (⟨500, RespBody.err (apiErrorPre ++ d)⟩, [pyStrip q])) ∧
    (gw (pyStrip q) = LLMResponse.otherError d →
      ask_question (some gw) (RequestBody.question q) =
        (⟨500, RespBody.err unexpectedErrorMsg⟩, [pyStrip q])) := by
  have hne := pyStrip_isEmpty_false hq
  constructor <;> intro hgw <;>
    simp [ask_question, generate_response, hne, hgw]

/-- C8 witness: the theorem applied to a stub client raising a provider
error with detail "quota exceeded" on the question "Hi". -/
theorem c8_witness :
    pyStrip (codes "Hi") ≠ [] ∧
    ask_question (some gwApiQuota) (RequestBody.question (codes "Hi")) =
      (⟨500, RespBody.err (apiErrorPre ++ codes "quota exceeded")⟩,
        [pyStrip (codes "Hi")]) :=
  ⟨by decide, (c8_failures_structured gwApiQuota (codes "Hi")
    (codes "quota exceeded") (by decide)).1 rfl⟩

/-- C9 counterexample: a validated request whose Gateway call fails gets
an error reply that carries no preprocessing trace at all, refuting
"always included ... including when the Gateway call fails". -/
theorem c9_counterexample :
    pyStrip (codes "Hi") ≠ [] ∧
    (ask_question (some gwApiQuota)
        (RequestBody.question (codes "Hi"))).1.httpStatus = 500 ∧
    responseTrace (ask_question (some gwApiQuota)
        (RequestBody.question (codes "Hi"))).1.body = none := by
  decide

/-- C9 (amended): for every validated request, preprocessing of the
stripped question is computed and its full trace is included in the HTTP
response whenever the reply is a success (any completion, including the
empty one), while the error replies produced by Gateway failures carry no
trace. -/
theorem c9_trace_success_only (gw : Gateway) (q t d : List Nat)
    (hq : pyStrip q ≠ []) :
    (gw (pyStrip q) = LLMResponse.ok t →
      responseTrace (ask_question (some gw)
          (RequestBody.question q)).1.body =
        some (preprocess (pyStrip q))) ∧
    (gw (pyStrip q) = LLMResponse.apiError d →
      responseTrace (ask_question (some gw)
          (RequestBody.question q)).1.body = none) ∧
    (gw (pyStrip q) = LLMResponse.otherError d →
      responseTrace (ask_question (some gw)
          (RequestBody.question q)).1.body = none) := by
  have hne := pyStrip_isEmpty_false hq
  refine ⟨fun hgw => ?_, fun hgw => ?_, fun hgw => ?_⟩ <;>
    simp [ask_question, generate_response, responseTrace, hne, hgw]

/-- C9 witness: the amended theorem applied to the question "Hi" and the
stub client answering "Paris". -/
theorem c9_witness :
    pyStrip (codes "Hi") ≠ [] ∧
    responseTrace (ask_question (some gwOk)
        (RequestBody.question (codes "Hi"))).1.body =
      some (preprocess (pyStrip (codes "Hi"))) :=
  ⟨by decide, (c9_trace_success_only gwOk (codes "Hi") (codes "Paris")
    (codes "x") (by decide)).1 rfl⟩

/-- C10: `query_llm` is total at its boundary — a provider error comes
back as the string "API Error: " plus the detail, any other failure as
"Error: " plus the detail, in the same return channel as an answer; the
CLI loop prints that value under the ANSWER banner exactly as it would a
genuine completion, and a failing client is indistinguishable from a
client whose completion happens to be the same error text. -/
theorem c10_cli_total (gw : Gateway) (line q d : List Nat)
    (hline : pyStrip line = q) (hq : q ≠ [])
    (hexit : lowercase q ∉ exitWords) :
    (gw (cliInstruction ++ q) = LLMResponse.apiError d →
      query_llm gw q = (codes "API Error: " ++ d, [cliInstruction ++ q])) ∧
    (gw (cliInstruction ++ q) = LLMResponse.otherError d →
      query_llm gw q = (codes "Error: " ++ d, [cliInstruction ++ q])) ∧
    cli_step gw line =
      CliAction.answered (query_llm gw q).1 (query_llm gw q).2 ∧
    (query_llm (fun _ => LLMResponse.apiError d) q).1 =
      (query_llm (fun _ => LLMResponse.ok (codes "API Error: " ++ d)) q).1 := by
  refine ⟨fun hgw => by simp [query_llm, hgw],
    fun hgw => by simp [query_llm, hgw], ?_, ?_⟩
  · have hne : q.isEmpty = false := by
      simpa [List.isEmpty_iff] using hq
    simp [cli_step, hline, hexit, hne]
  · have hcons : codes "API Error: " ++ d =
        65 :: (codes "PI Error: " ++ d) := rfl
    simp [query_llm, hcons]

/-- C10 witness: the theorem applied to the input line " weather " and
the quota-exceeded stub client; the printed answer is the error text. -/
theorem c10_witness :
    pyStrip (codes " weather ") = codes "weather" ∧
    codes "weather" ≠ [] ∧
    lowercase (codes "weather") ∉ exitWords ∧
    cli_step gwApiQuota (codes " weather ") =
      CliAction.answered (codes "API Error: quota exceeded")
        [codes "Answer the following question concisely: weather"] :=
  ⟨by decide, by decide, by decide, by
    have h := c10_cli_total gwApiQuota (codes " weather ") (codes "weather")
      (codes "quota exceeded") (by decide) (by decide) (by decide)
    rw [h.2.2.1]
    decide⟩

end QA
